import Mathlib

/-!
Verification of the provenance attribution core (server/provenance.py):
the attention-based attributor compute_attention, the embedding-similarity
attributor DocumentSimilarityAttribution.compute_similarity, and the span
locator find_sublist_positions they depend on.

The tokenizer, the transformer and the sentence embedder are external
collaborators; they are modelled as function parameters.  Attention weights
and similarity values are modelled as rationals.  Python exceptions are
modelled with Except, and Python half-open slice semantics (including
negative index resolution and clamping) are modelled explicitly.
-/

namespace Provenance

/-- Environment variables, modelling os.getenv: a partial map from variable
names to string values. -/
abbrev Env : Type := String → Option String

/-- Reading of the attribute_include_query flag shared by both attributors
(provenance.py lines 17-19 and 95-97): the flag is on unless the variable is
set to exactly the string False. -/
def includeQueryFlag (env : Env) : Bool :=
  !(env ("attribute_include_query") == some ("False"))

/-- Python slice bound resolution on an axis of length n: a negative bound
counts from the end, and the result is clamped into the interval from 0 to n. -/
def sliceIdx (n : ℕ) (i : ℤ) : ℕ :=
  if i < 0 then ((n : ℤ) + i).toNat else min i.toNat n

/-- The last layer attention tensor attentions[0] for one input, indexed by
head, query position and key position (the batch axis of size one is dropped).
The field len is the common size of both position axes. -/
structure AttnTensor where
  heads : ℕ
  len : ℕ
  w : ℕ → ℕ → ℕ → ℚ

/-- Sum of a rectangular slice of the attention tensor over all heads, with
Python half-open slice semantics on both position axes: this models the
source expression attentions[0, :, q0:q1, k0:k1].sum().item(). -/
def sliceSum (t : AttnTensor) (q0 q1 k0 k1 : ℤ) : ℚ :=
  ∑ h ∈ Finset.range t.heads,
    ∑ q ∈ Finset.Ico (sliceIdx t.len q0) (sliceIdx t.len q1),
      ∑ k ∈ Finset.Ico (sliceIdx t.len k0) (sliceIdx t.len k1), t.w h q k

/-- Total of all attention weights of the last layer,
attentions[0].sum().item() at line 45 of provenance.py. -/
def totalAttnSum (t : AttnTensor) : ℚ :=
  ∑ h ∈ Finset.range t.heads,
    ∑ q ∈ Finset.range t.len, ∑ k ∈ Finset.range t.len, t.w h q k

/-- Body of the loop over context offsets (provenance.py lines 50-71): the raw
attention mass exchanged between the document span and the answer span, plus
the query span terms when include_query is set.  The span bounds are used as
slice bounds exactly as in the source. -/
def doc_attention_sum (t : AttnTensor) (include_query : Bool)
    (qspan aspan se : ℤ × ℤ) : ℚ :=
  let answer_to_doc_attention := sliceSum t aspan.1 aspan.2 se.1 se.2
  let doc_to_answer_attention := sliceSum t se.1 se.2 aspan.1 aspan.2
  if include_query then
    let query_to_doc_attention := sliceSum t qspan.1 qspan.2 se.1 se.2
    let doc_to_query_attention := sliceSum t se.1 se.2 qspan.1 qspan.2
    query_to_doc_attention + answer_to_doc_attention +
      doc_to_query_attention + doc_to_answer_attention
  else
    answer_to_doc_attention + doc_to_answer_attention

/-- One candidate check of find_sublist_positions, the comparison
thread_tokens[i:i + len_part] == part_tokens at line 82. -/
def sublistAt (thread_tokens part_tokens : List ℕ) (i : ℕ) : Bool :=
  (thread_tokens.drop i).take part_tokens.length == part_tokens

/-- The scanning loop of find_sublist_positions, with the number of remaining
candidate offsets as fuel: for i in range(len_thread - len_part + 1). -/
def findLoop (thread_tokens part_tokens : List ℕ) : ℕ → ℕ → Option ℕ
  | _, 0 => none
  | i, n + 1 =>
    if sublistAt thread_tokens part_tokens i then some i
    else findLoop thread_tokens part_tokens (i + 1) n

/-- find_sublist_positions (provenance.py lines 77-85): the first offset at
which part_tokens occurs contiguously in thread_tokens, returned as the
inclusive pair (i, i + len_part - 1); the Sublist not found error otherwise.
The loop bound written in natural subtraction equals the Python iteration
count max(0, len_thread - len_part + 1). -/
def find_sublist_positions (thread_tokens part_tokens : List ℕ) :
    Except String (ℤ × ℤ) :=
  match findLoop thread_tokens part_tokens 0
      (thread_tokens.length + 1 - part_tokens.length) with
  | some i => .ok ((i : ℤ), (i : ℤ) + (part_tokens.length : ℤ) - 1)
  | none => .error ("Sublist not found")

/-- The loop collecting the context offsets (provenance.py lines 39-42),
failing on the first document whose token sequence is not found. -/
def contextOffsets (thread_toks : List ℕ) (tok : String → List ℕ) :
    List String → Except String (List (ℤ × ℤ))
  | [] => .ok []
  | part :: rest =>
    match find_sublist_positions thread_toks (tok part) with
    | .error e => .error e
    | .ok p =>
      match contextOffsets thread_toks tok rest with
      | .error e => .error e
      | .ok ps => .ok (p :: ps)

/-- The score list built by the main loop of compute_attention (lines 48-73)
once all spans are known: per document, the raw attention sum divided by the
total when the total is positive, and 0 otherwise. -/
def attentionScores (t : AttnTensor) (include_query : Bool)
    (qspan aspan : ℤ × ℤ) (offs : List (ℤ × ℤ)) : List ℚ :=
  offs.map (fun se =>
    let dsum := doc_attention_sum t include_query qspan aspan se
    if totalAttnSum t > 0 then dsum / totalAttnSum t else 0)

/-- compute_attention (provenance.py lines 16-75).  The external collaborators
are tok, giving the token ids of a string with add_special_tokens false, and
model, giving the last layer attention tensor for the encoded thread.  The
query span is located before the answer span and the context spans, exactly
as in the source, so the first failing lookup determines the error. -/
def compute_attention (env : Env) (model : List ℕ → AttnTensor)
    (tok : String → List ℕ) (thread query : String) (context : List String)
    (answer : String) : Except String (List ℚ) :=
  let include_query := includeQueryFlag env
  let thread_toks := tok thread
  let t := model thread_toks
  match find_sublist_positions thread_toks (tok query) with
  | .error e => .error e
  | .ok qspan =>
    match find_sublist_positions thread_toks (tok answer) with
    | .error e => .error e
    | .ok aspan =>
      match contextOffsets thread_toks tok context with
      | .error e => .error e
      | .ok offs => .ok (attentionScores t include_query qspan aspan offs)

/-- The similarity_scores list of compute_similarity (provenance.py lines
106-120): for each document embedding, the cosine similarity to the answer
embedding, averaged with the cosine similarity to the query embedding when
include_query is set.  encode is the sentence transformer and sim the cosine
similarity of two embeddings, both external collaborators. -/
def similarity_scores {E : Type} (env : Env) (encode : String → E)
    (sim : E → E → ℚ) (query : String) (context : List String)
    (answer : String) : List ℚ :=
  let include_query := includeQueryFlag env
  let answer_embedding := encode answer
  (context.map encode).map (fun doc_embedding =>
    let doc_answer_similarity := sim doc_embedding answer_embedding
    if include_query then
      (doc_answer_similarity + sim doc_embedding (encode query)) / 2
    else
      doc_answer_similarity)

/-- DocumentSimilarityAttribution.compute_similarity (provenance.py lines
99-125): normalize the similarity scores by their total when the total is
positive, and return them unchanged otherwise. -/
def compute_similarity {E : Type} (env : Env) (encode : String → E)
    (sim : E → E → ℚ) (query : String) (context : List String)
    (answer : String) : List ℚ :=
  let ss := similarity_scores env encode sim query context answer
  let total_similarity := ss.sum
  if total_similarity > 0 then ss.map (fun score => score / total_similarity)
  else ss

/-- Predicate: part occurs contiguously in thread at offset k (the slice of
thread of the length of part starting at k equals part). -/
def occursAt (H N : List ℕ) (k : ℕ) : Prop :=
  (H.drop k).take N.length = N

instance (H N : List ℕ) (k : ℕ) : Decidable (occursAt H N k) := by
  unfold occursAt
  infer_instance

instance {ε α : Type} [DecidableEq ε] [DecidableEq α] :
    DecidableEq (Except ε α) := fun a b =>
  match a, b with
  | .ok x, .ok y => decidable_of_iff (x = y) (by simp)
  | .error x, .error y => decidable_of_iff (x = y) (by simp)
  | .ok _, .error _ => isFalse (by simp)
  | .error _, .ok _ => isFalse (by simp)

/-- Written from the claim wording, for comparison with sliceSum: a sum over
inclusive spans, covering both endpoints of each span on both position axes. -/
def inclusiveSliceSum (t : AttnTensor) (q0 q1 k0 k1 : ℤ) : ℚ :=
  ∑ h ∈ Finset.range t.heads,
    ∑ q ∈ Finset.Icc q0 q1, ∑ k ∈ Finset.Icc k0 k1, t.w h q.toNat k.toNat

/-- Written from the claim wording, for comparison with doc_attention_sum: the
per document raw score with every span read as an inclusive token range. -/
def claimed_doc_attention_sum (t : AttnTensor) (include_query : Bool)
    (qspan aspan se : ℤ × ℤ) : ℚ :=
  let a2d := inclusiveSliceSum t aspan.1 aspan.2 se.1 se.2
  let d2a := inclusiveSliceSum t se.1 se.2 aspan.1 aspan.2
  if include_query then
    inclusiveSliceSum t qspan.1 qspan.2 se.1 se.2 + a2d +
      inclusiveSliceSum t se.1 se.2 qspan.1 qspan.2 + d2a
  else
    a2d + d2a

/-- Sum of attention weights over all heads and an arbitrary set of query and
key position pairs; a reformulation device for bounding doc_attention_sum. -/
def pairSum (t : AttnTensor) (S : Finset (ℕ × ℕ)) : ℚ :=
  ∑ h ∈ Finset.range t.heads, ∑ p ∈ S, t.w h p.1 p.2

/-- The set of positions covered by a span used as a Python slice on an axis
of length n: the half open range of resolved slice bounds. -/
def spanIco (n : ℕ) (p : ℤ × ℤ) : Finset ℕ :=
  Finset.Ico (sliceIdx n p.1) (sliceIdx n p.2)

/-! Concrete collaborators used in witnesses and counterexamples. -/

/-- Tokenizer of a four token thread in which the query is the first token,
the answer the second token, and the single document the last two tokens. -/
def tokA : String → List ℕ
  | "T" => [1, 2, 3, 4]
  | "Q" => [1]
  | "A" => [2]
  | "D" => [3, 4]
  | _ => []

/-- Tokenizer of a six token thread with a two token query, a two token answer
and a two token document. -/
def tokB : String → List ℕ
  | "T" => [1, 2, 3, 4, 5, 6]
  | "Q" => [1, 2]
  | "A" => [3, 4]
  | "D" => [5, 6]
  | _ => []

/-- Tokenizer of a two token thread in which the query token 9 does not occur. -/
def tokC : String → List ℕ
  | "T" => [4, 5]
  | "Q" => [9]
  | "A" => [4]
  | "D" => [5]
  | _ => []

/-- Attention model with one head, length four and every weight one. -/
def modelA (_ : List ℕ) : AttnTensor := ⟨1, 4, fun _ _ _ => 1⟩

/-- Attention model with one head, length six and every weight one. -/
def modelB (_ : List ℕ) : AttnTensor := ⟨1, 6, fun _ _ _ => 1⟩

/-- Attention model with one head, length four and every weight zero. -/
def modelZ (_ : List ℕ) : AttnTensor := ⟨1, 4, fun _ _ _ => 0⟩

/-- Empty environment: no variables set, so include_query defaults to on. -/
def envDefault : Env := fun _ => none

/-- Environment with attribute_include_query set to the string False. -/
def envNoQuery : Env := fun v =>
  if v == ("attribute_include_query") then some ("False") else none

/-- Exact cosine similarity of the one dimensional embeddings [x] and [y]:
for nonzero rationals it is x*y divided by the product of the norms. -/
def cosine1 (x y : ℚ) : ℚ := x * y / (|x| * |y|)

/-- One dimensional embedding model: document D1 embeds to -1 (opposite the
answer direction), every other string embeds to 1. -/
def encodeA : String → ℚ
  | "D1" => -1
  | _ => 1

lemma sublistAt_iff (H N : List ℕ) (i : ℕ) :
    sublistAt H N i = true ↔ occursAt H N i := by
  simp [sublistAt, occursAt]

lemma findLoop_some (H N : List ℕ) :
    ∀ (n i j : ℕ), findLoop H N i n = some j →
      sublistAt H N j = true ∧ i ≤ j ∧ j < i + n ∧
        ∀ m, i ≤ m → m < j → sublistAt H N m = false := by
  intro n
  induction n with
  | zero => intro i j h; simp [findLoop] at h
  | succ n ih =>
    intro i j h
    unfold findLoop at h
    by_cases hs : sublistAt H N i = true
    · rw [if_pos hs] at h
      injection h with h
      subst h
      exact ⟨hs, le_refl _, by omega, fun m h1 h2 => (by omega : False).elim⟩
    · rw [if_neg hs] at h
      obtain ⟨ha, hb, hc, hd⟩ := ih (i + 1) j h
      refine ⟨ha, by omega, by omega, ?_⟩
      intro m h1 h2
      rcases Nat.eq_or_lt_of_le h1 with he | hl
      · rw [← he]
        simpa using hs
      · exact hd m (by omega) h2

lemma findLoop_exists (H N : List ℕ) :
    ∀ (n i j : ℕ), i ≤ j → j < i + n → sublistAt H N j = true →
      ∃ r, findLoop H N i n = some r := by
  intro n
  induction n with
  | zero => intro i j h1 h2 _; exact (by omega : False).elim
  | succ n ih =>
    intro i j h1 h2 hs
    unfold findLoop
    by_cases h : sublistAt H N i = true
    · rw [if_pos h]
      exact ⟨i, rfl⟩
    · rw [if_neg h]
      have hne : i ≠ j := fun e => h (e ▸ hs)
      exact ih (i + 1) j (by omega) (by omega) hs

lemma occursAt_length {H N : List ℕ} {k : ℕ} (hN : N ≠ []) (h : occursAt H N k) :
    k + N.length ≤ H.length := by
  unfold occursAt at h
  have hl := congrArg List.length h
  simp [List.length_take, List.length_drop] at hl
  have hN0 : 0 < N.length := List.length_pos.mpr hN
  omega

/-- Main characterisation of a successful lookup: if N occurs anywhere in H,
find_sublist_positions returns the least occurrence i together with the
inclusive end offset i + len(N) - 1. -/
lemma find_ok_least {H N : List ℕ} {k : ℕ} (h : occursAt H N k) :
    ∃ i : ℕ, find_sublist_positions H N =
        .ok ((i : ℤ), (i : ℤ) + (N.length : ℤ) - 1) ∧
      occursAt H N i ∧ ∀ j, occursAt H N j → i ≤ j := by
  have hb : ∃ j, sublistAt H N j = true ∧ j < H.length + 1 - N.length := by
    by_cases hN : N = []
    · subst hN
      exact ⟨0, by simp [sublistAt], by simp only [List.length_nil]; omega⟩
    · have hlen := occursAt_length hN h
      have h0 : 0 < N.length := List.length_pos.mpr hN
      exact ⟨k, (sublistAt_iff H N k).mpr h, by omega⟩
  obtain ⟨j, hj, hjlt⟩ := hb
  obtain ⟨r, hr⟩ :=
    findLoop_exists H N (H.length + 1 - N.length) 0 j (by omega) (by omega) hj
  obtain ⟨hsub, -, -, hmin⟩ :=
    findLoop_some H N (H.length + 1 - N.length) 0 r hr
  refine ⟨r, ?_, (sublistAt_iff H N r).mp hsub, ?_⟩
  · unfold find_sublist_positions
    rw [hr]
  · intro m hm
    by_contra hlt
    push_neg at hlt
    have hf := hmin m (Nat.zero_le m) hlt
    rw [(sublistAt_iff H N m).mpr hm] at hf
    exact Bool.noConfusion hf

/-- A needle that occurs nowhere makes find_sublist_positions fail with the
Sublist not found error. -/
lemma find_error {H N : List ℕ} (h : ∀ k, ¬ occursAt H N k) :
    find_sublist_positions H N = .error ("Sublist not found") := by
  unfold find_sublist_positions
  cases hf : findLoop H N 0 (H.length + 1 - N.length) with
  | none => rfl
  | some i =>
    obtain ⟨hs, -, -, -⟩ := findLoop_some H N _ 0 i hf
    exact absurd ((sublistAt_iff H N i).mp hs) (h i)

lemma compute_attention_ok {env : Env} {model : List ℕ → AttnTensor}
    {tok : String → List ℕ} {thread query answer : String}
    {context : List String} {qspan aspan : ℤ × ℤ} {offs : List (ℤ × ℤ)}
    (hq : find_sublist_positions (tok thread) (tok query) = .ok qspan)
    (ha : find_sublist_positions (tok thread) (tok answer) = .ok aspan)
    (ho : contextOffsets (tok thread) tok context = .ok offs) :
    compute_attention env model tok thread query context answer =
      .ok (attentionScores (model (tok thread)) (includeQueryFlag env)
        qspan aspan offs) := by
  simp only [compute_attention, hq, ha, ho]

lemma compute_attention_error_query {env : Env} {model : List ℕ → AttnTensor}
    {tok : String → List ℕ} {thread query answer : String}
    {context : List String} {msg : String}
    (hq : find_sublist_positions (tok thread) (tok query) = .error msg) :
    compute_attention env model tok thread query context answer = .error msg := by
  simp only [compute_attention, hq]

lemma compute_attention_ok_inv {env : Env} {model : List ℕ → AttnTensor}
    {tok : String → List ℕ} {thread query answer : String}
    {context : List String} {scores : List ℚ}
    (h : compute_attention env model tok thread query context answer =
      .ok scores) :
    ∃ qspan aspan offs,
      find_sublist_positions (tok thread) (tok query) = .ok qspan ∧
      find_sublist_positions (tok thread) (tok answer) = .ok aspan ∧
      contextOffsets (tok thread) tok context = .ok offs ∧
      scores = attentionScores (model (tok thread)) (includeQueryFlag env)
        qspan aspan offs := by
  simp only [compute_attention] at h
  cases hq : find_sublist_positions (tok thread) (tok query) with
  | error e => rw [hq] at h; exact absurd h (by simp)
  | ok qspan =>
    rw [hq] at h
    cases ha : find_sublist_positions (tok thread) (tok answer) with
    | error e => rw [ha] at h; exact absurd h (by simp)
    | ok aspan =>
      rw [ha] at h
      cases ho : contextOffsets (tok thread) tok context with
      | error e => rw [ho] at h; exact absurd h (by simp)
      | ok offs =>
        rw [ho] at h
        simp only [Except.ok.injEq] at h
        exact ⟨qspan, aspan, offs, rfl, rfl, rfl, h.symm⟩

lemma contextOffsets_length (thread_toks : List ℕ) (tok : String → List ℕ) :
    ∀ (context : List String) (offs : List (ℤ × ℤ)),
      contextOffsets thread_toks tok context = .ok offs →
      offs.length = context.length := by
  intro context
  induction context with
  | nil =>
    intro offs h
    simp only [contextOffsets, Except.ok.injEq] at h
    simp [← h]
  | cons part rest ih =>
    intro offs h
    simp only [contextOffsets] at h
    cases hp : find_sublist_positions thread_toks (tok part) with
    | error e => rw [hp] at h; exact absurd h (by simp)
    | ok p =>
      rw [hp] at h
      cases ho : contextOffsets thread_toks tok rest with
      | error e => rw [ho] at h; exact absurd h (by simp)
      | ok ps =>
        rw [ho] at h
        simp only [Except.ok.injEq] at h
        rw [← h]
        simp [ih ps ho]

/-! Claims C6, C7, C8 and C9: the span locator and its use for the query. -/

/-- C6 counterexample: the claim states that for EVERY offset k at which N
occurs in H the returned start equals that k.  In H = [0, 0] the needle
N = [0] occurs at offset 1, yet find_sublist_positions returns start 0. -/
theorem C6_counterexample :
    occursAt [0, 0] [0] 1 ∧
      find_sublist_positions [0, 0] [0] = .ok (0, 0) ∧ (0 : ℤ) ≠ (1 : ℤ) := by
  refine ⟨by decide, ?_, by decide⟩
  decide

/-- C6 (amended): if N occurs in H at some offset k, find_sublist_positions
returns a pair (i, i + len(N) - 1) whose start i is an offset at which N
really occurs, with i at most k (the returned start is the least occurrence,
so it equals k only when k is the first occurrence). -/
theorem C6_span_correct (H N : List ℕ) (k : ℕ) (h : occursAt H N k) :
    ∃ i : ℕ, i ≤ k ∧
      find_sublist_positions H N =
        .ok ((i : ℤ), (i : ℤ) + (N.length : ℤ) - 1) ∧
      occursAt H N i := by
  obtain ⟨i, hok, hocc, hmin⟩ := find_ok_least h
  exact ⟨i, hmin k h, hok, hocc⟩

/-- C6 witness: the amended statement applied to H = [0, 0], N = [0], k = 1. -/
theorem C6_witness :
    ∃ i : ℕ, i ≤ 1 ∧
      find_sublist_positions [0, 0] [0] =
        .ok ((i : ℤ), (i : ℤ) + (([0] : List ℕ).length : ℤ) - 1) ∧
      occursAt [0, 0] [0] i :=
  C6_span_correct [0, 0] [0] 1 (by decide)

/-- C7: the returned start offset is at most every offset at which the needle
occurs, so the first (lowest offset) match wins and later occurrences are
ignored. -/
theorem C7_first_match (H N : List ℕ) (p : ℤ × ℤ)
    (hp : find_sublist_positions H N = .ok p) :
    ∀ j, occursAt H N j → p.1 ≤ (j : ℤ) := by
  intro j hj
  unfold find_sublist_positions at hp
  cases hf : findLoop H N 0 (H.length + 1 - N.length) with
  | none => rw [hf] at hp; exact absurd hp (by simp)
  | some i =>
    rw [hf] at hp
    injection hp with hp
    subst hp
    obtain ⟨-, -, -, hmin⟩ := findLoop_some H N _ 0 i hf
    have hij : i ≤ j := by
      by_contra hlt
      push_neg at hlt
      have hfm := hmin j (Nat.zero_le j) hlt
      rw [(sublistAt_iff H N j).mpr hj] at hfm
      exact Bool.noConfusion hfm
    show (i : ℤ) ≤ (j : ℤ)
    exact_mod_cast hij

/-- C7 witness: in [5, 7, 5, 7] the needle [5, 7] occurs at offsets 0 and 2;
the locator returns (0, 1) and its start is at most the later occurrence 2. -/
theorem C7_witness :
    find_sublist_positions [5, 7, 5, 7] [5, 7] = .ok (0, 1) ∧
      ((0 : ℤ), (1 : ℤ)).1 ≤ ((2 : ℕ) : ℤ) :=
  ⟨by decide, C7_first_match [5, 7, 5, 7] [5, 7] (0, 1) (by decide) 2 (by decide)⟩

/-- C8: when the needle does not occur contiguously in the haystack at any
offset, find_sublist_positions raises the Sublist not found error rather than
returning a span. -/
theorem C8_not_found (H N : List ℕ) (h : ∀ k, ¬ occursAt H N k) :
    find_sublist_positions H N = .error ("Sublist not found") :=
  find_error h

/-- The needle [3] occurs nowhere in [1, 2]. -/
lemma no_occurrence_three : ∀ k, ¬ occursAt [1, 2] [3] k := by
  intro k hk
  have hb := occursAt_length (by decide) hk
  simp only [List.length_cons, List.length_nil] at hb
  have hk1 : k ≤ 1 := by omega
  interval_cases k
  · exact absurd hk (by decide)
  · exact absurd hk (by decide)

/-- C8 witness: the token [3] does not occur in [1, 2] and the locator fails. -/
theorem C8_witness :
    (∀ k, ¬ occursAt [1, 2] [3] k) ∧
      find_sublist_positions [1, 2] [3] = .error ("Sublist not found") :=
  ⟨no_occurrence_three, C8_not_found [1, 2] [3] no_occurrence_three⟩

/-- C9: compute_attention locates the query span before reading any score and
regardless of the include_query flag carried by the environment, so a query
whose tokens do not occur in the thread tokens makes the whole call fail with
the Sublist not found error for every environment. -/
theorem C9_query_always_located (env : Env) (model : List ℕ → AttnTensor)
    (tok : String → List ℕ) (thread query : String) (context : List String)
    (answer : String)
    (h : ∀ k, ¬ occursAt (tok thread) (tok query) k) :
    compute_attention env model tok thread query context answer =
      .error ("Sublist not found") :=
  compute_attention_error_query (find_error h)

/-- The query token 9 of tokC occurs nowhere in its thread tokens [4, 5]. -/
lemma no_occurrence_nine : ∀ k, ¬ occursAt (tokC ("T")) (tokC ("Q")) k := by
  intro k hk
  have hb := occursAt_length (by decide) hk
  simp only [tokC, List.length_cons, List.length_nil] at hb
  have hk1 : k ≤ 1 := by omega
  interval_cases k
  · exact absurd hk (by decide)
  · exact absurd hk (by decide)

/-- C9 witness: with attribute_include_query set to False, a query absent from
the thread still aborts compute_attention with the span error. -/
theorem C9_witness :
    envNoQuery ("attribute_include_query") = some ("False") ∧
      compute_attention envNoQuery modelA tokC ("T") ("Q") [("D")] ("A") =
        .error ("Sublist not found") :=
  ⟨by decide,
    C9_query_always_located envNoQuery modelA tokC ("T") ("Q") [("D")] ("A")
      no_occurrence_nine⟩

/-! Evaluation lemmas for the concrete collaborators. -/

lemma includeQueryFlag_envDefault : includeQueryFlag envDefault = true := rfl

lemma includeQueryFlag_envNoQuery : includeQueryFlag envNoQuery = false := rfl

lemma sliceSum_const (hds n : ℕ) (c : ℚ) (q0 q1 k0 k1 : ℤ) :
    sliceSum ⟨hds, n, fun _ _ _ => c⟩ q0 q1 k0 k1 =
      ((hds * ((sliceIdx n q1 - sliceIdx n q0) *
        (sliceIdx n k1 - sliceIdx n k0)) : ℕ) : ℚ) * c := by
  simp [sliceSum, Finset.sum_const, Nat.card_Ico, Finset.card_range,
    nsmul_eq_mul]
  ring

lemma totalAttnSum_const (hds n : ℕ) (c : ℚ) :
    totalAttnSum ⟨hds, n, fun _ _ _ => c⟩ = ((hds * (n * n) : ℕ) : ℚ) * c := by
  simp [totalAttnSum, Finset.sum_const, Finset.card_range, nsmul_eq_mul]
  ring

lemma inclusiveSliceSum_const (hds n : ℕ) (c : ℚ) (q0 q1 k0 k1 : ℤ) :
    inclusiveSliceSum ⟨hds, n, fun _ _ _ => c⟩ q0 q1 k0 k1 =
      (hds : ℚ) * (((q1 + 1 - q0).toNat : ℚ) * (((k1 + 1 - k0).toNat : ℚ) * c)) := by
  simp [inclusiveSliceSum, Finset.sum_const, Int.card_Icc, Finset.card_range,
    nsmul_eq_mul]

lemma totalA : totalAttnSum (modelA (tokA ("T"))) = 16 := by
  show totalAttnSum ⟨1, 4, fun _ _ _ => 1⟩ = 16
  rw [totalAttnSum_const]
  norm_num

lemma dsumA :
    doc_attention_sum (modelA (tokA ("T"))) true (0, 0) (1, 1) (2, 3) = 0 := by
  show doc_attention_sum ⟨1, 4, fun _ _ _ => 1⟩ true (0, 0) (1, 1) (2, 3) = 0
  simp only [doc_attention_sum, sliceSum_const, if_true]
  norm_num [sliceIdx]

lemma claimedA :
    claimed_doc_attention_sum (modelA (tokA ("T"))) true (0, 0) (1, 1) (2, 3) = 8 := by
  show claimed_doc_attention_sum ⟨1, 4, fun _ _ _ => 1⟩ true (0, 0) (1, 1) (2, 3) = 8
  simp only [claimed_doc_attention_sum, inclusiveSliceSum_const, if_true]
  simp
  norm_num

lemma evalA :
    compute_attention envDefault modelA tokA ("T") ("Q") [("D")] ("A") =
      .ok [0] := by
  rw [@compute_attention_ok envDefault modelA tokA ("T") ("Q") ("A") [("D")]
    (0, 0) (1, 1) [(2, 3)] (by decide) (by decide) (by decide)]
  simp only [attentionScores, includeQueryFlag_envDefault, List.map, dsumA, totalA]
  norm_num

lemma totalB : totalAttnSum (modelB (tokB ("T"))) = 36 := by
  show totalAttnSum ⟨1, 6, fun _ _ _ => 1⟩ = 36
  rw [totalAttnSum_const]
  norm_num

lemma dsumB :
    doc_attention_sum (modelB (tokB ("T"))) true (0, 1) (2, 3) (4, 5) = 4 := by
  show doc_attention_sum ⟨1, 6, fun _ _ _ => 1⟩ true (0, 1) (2, 3) (4, 5) = 4
  simp only [doc_attention_sum, sliceSum_const, if_true]
  norm_num [sliceIdx]
  simp
  norm_num

lemma evalB :
    compute_attention envDefault modelB tokB ("T") ("Q") [("D")] ("A") =
      .ok [1 / 9] := by
  rw [@compute_attention_ok envDefault modelB tokB ("T") ("Q") ("A") [("D")]
    (0, 1) (2, 3) [(4, 5)] (by decide) (by decide) (by decide)]
  simp only [attentionScores, includeQueryFlag_envDefault, List.map, dsumB, totalB]
  norm_num

lemma totalZ : totalAttnSum (modelZ (tokA ("T"))) = 0 := by
  show totalAttnSum ⟨1, 4, fun _ _ _ => 0⟩ = 0
  rw [totalAttnSum_const]
  norm_num

lemma encodeA_D1 : encodeA ("D1") = -1 := rfl

lemma encodeA_D2 : encodeA ("D2") = 1 := rfl

lemma encodeA_D3 : encodeA ("D3") = 1 := rfl

lemma encodeA_A : encodeA ("A") = 1 := rfl

lemma cosine1_neg : cosine1 (-1) 1 = -1 := by norm_num [cosine1]

lemma cosine1_one : cosine1 1 1 = 1 := by norm_num [cosine1]

lemma ssNeg :
    similarity_scores envNoQuery encodeA cosine1 ("Q")
      [("D1"), ("D2"), ("D3")] ("A") = [-1, 1, 1] := by
  simp [similarity_scores, includeQueryFlag_envNoQuery, encodeA_D1, encodeA_D2,
    encodeA_D3, encodeA_A, cosine1_neg, cosine1_one]

lemma ssPos :
    similarity_scores envNoQuery encodeA cosine1 ("Q") [("D2"), ("D3")] ("A") =
      [1, 1] := by
  simp [similarity_scores, includeQueryFlag_envNoQuery, encodeA_D2, encodeA_D3,
    encodeA_A, cosine1_one]

lemma ssOne :
    similarity_scores envNoQuery encodeA cosine1 ("Q") [("D1")] ("A") =
      [-1] := by
  simp [similarity_scores, includeQueryFlag_envNoQuery, encodeA_D1, encodeA_A,
    cosine1_neg]

lemma compute_similarity_pos {E : Type} (env : Env) (encode : String → E)
    (sim : E → E → ℚ) (query : String) (context : List String) (answer : String)
    (h : 0 < (similarity_scores env encode sim query context answer).sum) :
    compute_similarity env encode sim query context answer =
      (similarity_scores env encode sim query context answer).map
        (fun score =>
          score / (similarity_scores env encode sim query context answer).sum) := by
  simp only [compute_similarity]
  rw [if_pos h]

lemma compute_similarity_nonpos {E : Type} (env : Env) (encode : String → E)
    (sim : E → E → ℚ) (query : String) (context : List String) (answer : String)
    (h : ¬ 0 < (similarity_scores env encode sim query context answer).sum) :
    compute_similarity env encode sim query context answer =
      similarity_scores env encode sim query context answer := by
  simp only [compute_similarity]
  rw [if_neg h]

lemma list_sum_map_div (l : List ℚ) (c : ℚ) :
    (l.map (fun x => x / c)).sum = l.sum / c := by
  induction l with
  | nil => simp
  | cons x xs ih => simp [ih, add_div]

lemma similarity_scores_length {E : Type} (env : Env) (encode : String → E)
    (sim : E → E → ℚ) (query : String) (context : List String)
    (answer : String) :
    (similarity_scores env encode sim query context answer).length =
      context.length := by
  simp [similarity_scores]

lemma compute_similarity_length {E : Type} (env : Env) (encode : String → E)
    (sim : E → E → ℚ) (query : String) (context : List String)
    (answer : String) :
    (compute_similarity env encode sim query context answer).length =
      context.length := by
  simp only [compute_similarity]
  split
  · simp [similarity_scores]
  · simp [similarity_scores]

lemma evalSimNeg :
    compute_similarity envNoQuery encodeA cosine1 ("Q")
      [("D1"), ("D2"), ("D3")] ("A") = [-1, 1, 1] := by
  have h : 0 < (similarity_scores envNoQuery encodeA cosine1 ("Q")
      [("D1"), ("D2"), ("D3")] ("A")).sum := by
    rw [ssNeg]
    norm_num
  rw [compute_similarity_pos envNoQuery encodeA cosine1 ("Q")
    [("D1"), ("D2"), ("D3")] ("A") h, ssNeg]
  norm_num

lemma evalSimPos :
    compute_similarity envNoQuery encodeA cosine1 ("Q") [("D2"), ("D3")] ("A") =
      [1 / 2, 1 / 2] := by
  have h : 0 < (similarity_scores envNoQuery encodeA cosine1 ("Q")
      [("D2"), ("D3")] ("A")).sum := by
    rw [ssPos]
    norm_num
  rw [compute_similarity_pos envNoQuery encodeA cosine1 ("Q")
    [("D2"), ("D3")] ("A") h, ssPos]
  norm_num

lemma list_map_congr {α β : Type} {l : List α} {f g : α → β}
    (h : ∀ a ∈ l, f a = g a) : l.map f = l.map g := by
  induction l with
  | nil => rfl
  | cons x xs ih =>
    simp only [List.map_cons, h x (by simp)]
    rw [ih (fun a ha => h a (by simp [ha]))]

lemma sliceIdx_le (n : ℕ) (i : ℤ) : sliceIdx n i ≤ n := by
  unfold sliceIdx
  split <;> omega

lemma w_zero_of_nonpos {t : AttnTensor} (hw : ∀ a b c', 0 ≤ t.w a b c')
    (hle : totalAttnSum t ≤ 0) :
    ∀ a b c', a < t.heads → b < t.len → c' < t.len → t.w a b c' = 0 := by
  have hnn1 : ∀ x ∈ Finset.range t.heads,
      0 ≤ ∑ q ∈ Finset.range t.len, ∑ k ∈ Finset.range t.len, t.w x q k :=
    fun x _ => Finset.sum_nonneg fun q _ => Finset.sum_nonneg fun k _ => hw x q k
  have h0 : totalAttnSum t = 0 := le_antisymm hle (Finset.sum_nonneg hnn1)
  intro a b c' ha hb hc
  have h1 := (Finset.sum_eq_zero_iff_of_nonneg hnn1).mp h0 a
    (Finset.mem_range.mpr ha)
  have hnn2 : ∀ x ∈ Finset.range t.len,
      0 ≤ ∑ k ∈ Finset.range t.len, t.w a x k :=
    fun x _ => Finset.sum_nonneg fun k _ => hw a x k
  have h2 := (Finset.sum_eq_zero_iff_of_nonneg hnn2).mp h1 b
    (Finset.mem_range.mpr hb)
  have hnn3 : ∀ x ∈ Finset.range t.len, 0 ≤ t.w a b x := fun x _ => hw a b x
  exact (Finset.sum_eq_zero_iff_of_nonneg hnn3).mp h2 c'
    (Finset.mem_range.mpr hc)

lemma sliceSum_eq_zero {t : AttnTensor}
    (hz : ∀ a b c', a < t.heads → b < t.len → c' < t.len → t.w a b c' = 0)
    (q0 q1 k0 k1 : ℤ) : sliceSum t q0 q1 k0 k1 = 0 := by
  unfold sliceSum
  refine Finset.sum_eq_zero fun a ha => Finset.sum_eq_zero fun b hb =>
    Finset.sum_eq_zero fun c' hc => ?_
  exact hz a b c' (Finset.mem_range.mp ha)
    (lt_of_lt_of_le (Finset.mem_Ico.mp hb).2 (sliceIdx_le t.len q1))
    (lt_of_lt_of_le (Finset.mem_Ico.mp hc).2 (sliceIdx_le t.len k1))

lemma doc_attention_sum_eq_zero {t : AttnTensor}
    (hz : ∀ a b c', a < t.heads → b < t.len → c' < t.len → t.w a b c' = 0)
    (iq : Bool) (qspan aspan se : ℤ × ℤ) :
    doc_attention_sum t iq qspan aspan se = 0 := by
  cases iq <;> simp [doc_attention_sum, sliceSum_eq_zero hz]

lemma spanIco_subset_range (n : ℕ) (p : ℤ × ℤ) :
    spanIco n p ⊆ Finset.range n := by
  intro x hx
  rw [Finset.mem_range]
  exact lt_of_lt_of_le (Finset.mem_Ico.mp hx).2 (sliceIdx_le n p.2)

lemma sliceSum_eq_pairSum (t : AttnTensor) (p r : ℤ × ℤ) :
    sliceSum t p.1 p.2 r.1 r.2 =
      pairSum t (spanIco t.len p ×ˢ spanIco t.len r) := by
  unfold sliceSum pairSum spanIco
  exact Finset.sum_congr rfl fun a _ =>
    (Finset.sum_product _ _ (fun z => t.w a z.1 z.2)).symm

lemma sliceSum_nonneg {t : AttnTensor} (hw : ∀ a b c', 0 ≤ t.w a b c')
    (q0 q1 k0 k1 : ℤ) : 0 ≤ sliceSum t q0 q1 k0 k1 :=
  Finset.sum_nonneg fun a _ => Finset.sum_nonneg fun b _ =>
    Finset.sum_nonneg fun c' _ => hw a b c'

lemma pairSum_union {t : AttnTensor} {S T : Finset (ℕ × ℕ)}
    (hd : Disjoint S T) :
    pairSum t (S ∪ T) = pairSum t S + pairSum t T := by
  unfold pairSum
  rw [← Finset.sum_add_distrib]
  exact Finset.sum_congr rfl fun a _ => Finset.sum_union hd

lemma pairSum_le_total {t : AttnTensor} (hw : ∀ a b c', 0 ≤ t.w a b c')
    {S : Finset (ℕ × ℕ)}
    (hS : S ⊆ Finset.range t.len ×ˢ Finset.range t.len) :
    pairSum t S ≤ totalAttnSum t := by
  have ht : totalAttnSum t =
      pairSum t (Finset.range t.len ×ˢ Finset.range t.len) := by
    unfold totalAttnSum pairSum
    exact Finset.sum_congr rfl fun a _ =>
      (Finset.sum_product _ _ (fun z => t.w a z.1 z.2)).symm
  rw [ht]
  unfold pairSum
  exact Finset.sum_le_sum fun a _ =>
    Finset.sum_le_sum_of_subset_of_nonneg hS fun p _ _ => hw a p.1 p.2

lemma disjoint_prod_left {s1 s2 t1 t2 : Finset ℕ} (h : Disjoint s1 s2) :
    Disjoint (s1 ×ˢ t1) (s2 ×ˢ t2) := by
  rw [Finset.disjoint_left] at h ⊢
  intro p hp hq
  exact h (Finset.mem_product.mp hp).1 (Finset.mem_product.mp hq).1

lemma disjoint_prod_right {s1 s2 t1 t2 : Finset ℕ} (h : Disjoint t1 t2) :
    Disjoint (s1 ×ˢ t1) (s2 ×ˢ t2) := by
  rw [Finset.disjoint_left] at h ⊢
  intro p hp hq
  exact h (Finset.mem_product.mp hp).2 (Finset.mem_product.mp hq).2

lemma doc_attention_sum_nonneg {t : AttnTensor}
    (hw : ∀ a b c', 0 ≤ t.w a b c') (iq : Bool) (qspan aspan se : ℤ × ℤ) :
    0 ≤ doc_attention_sum t iq qspan aspan se := by
  cases iq with
  | false =>
    show 0 ≤ sliceSum t aspan.1 aspan.2 se.1 se.2 +
      sliceSum t se.1 se.2 aspan.1 aspan.2
    exact add_nonneg (sliceSum_nonneg hw _ _ _ _) (sliceSum_nonneg hw _ _ _ _)
  | true =>
    show 0 ≤ sliceSum t qspan.1 qspan.2 se.1 se.2 +
      sliceSum t aspan.1 aspan.2 se.1 se.2 +
      sliceSum t se.1 se.2 qspan.1 qspan.2 +
      sliceSum t se.1 se.2 aspan.1 aspan.2
    exact add_nonneg (add_nonneg (add_nonneg (sliceSum_nonneg hw _ _ _ _)
      (sliceSum_nonneg hw _ _ _ _)) (sliceSum_nonneg hw _ _ _ _))
      (sliceSum_nonneg hw _ _ _ _)

lemma doc_attention_sum_le_total {t : AttnTensor}
    (hw : ∀ a b c', 0 ≤ t.w a b c') (iq : Bool) (qspan aspan se : ℤ × ℤ)
    (hda : Disjoint (spanIco t.len aspan) (spanIco t.len se))
    (hdq : Disjoint (spanIco t.len qspan) (spanIco t.len se))
    (hqa : Disjoint (spanIco t.len qspan) (spanIco t.len aspan)) :
    doc_attention_sum t iq qspan aspan se ≤ totalAttnSum t := by
  have hsubA := spanIco_subset_range t.len aspan
  have hsubD := spanIco_subset_range t.len se
  have hsubQ := spanIco_subset_range t.len qspan
  cases iq with
  | false =>
    show sliceSum t aspan.1 aspan.2 se.1 se.2 +
      sliceSum t se.1 se.2 aspan.1 aspan.2 ≤ totalAttnSum t
    rw [sliceSum_eq_pairSum t aspan se, sliceSum_eq_pairSum t se aspan,
      ← pairSum_union (disjoint_prod_left hda)]
    exact pairSum_le_total hw (Finset.union_subset
      (Finset.product_subset_product hsubA hsubD)
      (Finset.product_subset_product hsubD hsubA))
  | true =>
    show sliceSum t qspan.1 qspan.2 se.1 se.2 +
      sliceSum t aspan.1 aspan.2 se.1 se.2 +
      sliceSum t se.1 se.2 qspan.1 qspan.2 +
      sliceSum t se.1 se.2 aspan.1 aspan.2 ≤ totalAttnSum t
    rw [sliceSum_eq_pairSum t qspan se, sliceSum_eq_pairSum t aspan se,
      sliceSum_eq_pairSum t se qspan, sliceSum_eq_pairSum t se aspan]
    have d1 : Disjoint (spanIco t.len qspan ×ˢ spanIco t.len se)
        (spanIco t.len aspan ×ˢ spanIco t.len se) := disjoint_prod_left hqa
    have d2 : Disjoint ((spanIco t.len qspan ×ˢ spanIco t.len se) ∪
        (spanIco t.len aspan ×ˢ spanIco t.len se))
        (spanIco t.len se ×ˢ spanIco t.len qspan) :=
      Finset.disjoint_union_left.mpr
        ⟨disjoint_prod_left hdq, disjoint_prod_left hda⟩
    have d3 : Disjoint (((spanIco t.len qspan ×ˢ spanIco t.len se) ∪
        (spanIco t.len aspan ×ˢ spanIco t.len se)) ∪
        (spanIco t.len se ×ˢ spanIco t.len qspan))
        (spanIco t.len se ×ˢ spanIco t.len aspan) :=
      Finset.disjoint_union_left.mpr
        ⟨Finset.disjoint_union_left.mpr
          ⟨disjoint_prod_left hdq, disjoint_prod_left hda⟩,
          disjoint_prod_right hqa⟩
    rw [← pairSum_union d1, ← pairSum_union d2, ← pairSum_union d3]
    refine pairSum_le_total hw ?_
    refine Finset.union_subset (Finset.union_subset (Finset.union_subset ?_ ?_) ?_) ?_
    · exact Finset.product_subset_product hsubQ hsubD
    · exact Finset.product_subset_product hsubA hsubD
    · exact Finset.product_subset_product hsubD hsubQ
    · exact Finset.product_subset_product hsubD hsubA

/-! Claims C1 to C5 and C10. -/

/-- C1 (code bug witnessed on a concrete input): find_sublist_positions
returns INCLUSIVE end offsets, but compute_attention uses each span directly
as a Python slice, whose stop bound is EXCLUSIVE, so every attention sum
omits the last token of its span.  On a uniform one head attention tensor
over the thread [1, 2, 3, 4] with query span (0, 0), answer span (1, 1) and
document span (2, 3), the code returns the score 0, because the single token
query and answer spans become empty slices; the sums over the inclusive
spans demanded by the claim give the raw score 8 and the normalized score
8 / 16 = 1 / 2 instead. -/
theorem C1_span_end_excluded :
    find_sublist_positions (tokA ("T")) (tokA ("A")) = .ok (1, 1) ∧
      contextOffsets (tokA ("T")) tokA [("D")] = .ok [(2, 3)] ∧
      compute_attention envDefault modelA tokA ("T") ("Q") [("D")] ("A") =
        .ok [0] ∧
      0 < totalAttnSum (modelA (tokA ("T"))) ∧
      claimed_doc_attention_sum (modelA (tokA ("T"))) true (0, 0) (1, 1) (2, 3) /
        totalAttnSum (modelA (tokA ("T"))) = 1 / 2 ∧
      (0 : ℚ) ≠ 1 / 2 := by
  refine ⟨by decide, by decide, evalA, ?_, ?_, by norm_num⟩
  · rw [totalA]
    norm_num
  · rw [claimedA, totalA]
    norm_num

/-- C2 counterexample: a call of compute_attention with positive total
attention weight whose returned scores sum to 1 / 9, not to 1: the
attention attributor does not renormalize its scores to sum to one. -/
theorem C2_counterexample :
    0 < totalAttnSum (modelB (tokB ("T"))) ∧
      compute_attention envDefault modelB tokB ("T") ("Q") [("D")] ("A") =
        .ok [1 / 9] ∧
      ([1 / 9] : List ℚ).sum ≠ 1 := by
  refine ⟨?_, evalB, by norm_num⟩
  rw [totalB]
  norm_num

/-- C2 (amended): both attributors return one score per input document;
compute_similarity returns scores summing exactly to 1 whenever its total
similarity is positive, while compute_attention divides each raw score by the
same total attention weight without renormalizing, so its scores need not sum
to 1. -/
theorem C2_one_score_per_document :
    (∀ (E : Type) (env : Env) (encode : String → E) (sim : E → E → ℚ)
        (query answer : String) (context : List String),
      0 < (similarity_scores env encode sim query context answer).sum →
      (compute_similarity env encode sim query context answer).sum = 1 ∧
        (compute_similarity env encode sim query context answer).length =
          context.length)
    ∧ ∀ (env : Env) (model : List ℕ → AttnTensor) (tok : String → List ℕ)
        (thread query answer : String) (context : List String)
        (scores : List ℚ),
      compute_attention env model tok thread query context answer =
        .ok scores →
      scores.length = context.length := by
  constructor
  · intro E env encode sim query answer context h
    refine ⟨?_, compute_similarity_length env encode sim query context answer⟩
    rw [compute_similarity_pos env encode sim query context answer h,
      list_sum_map_div, div_self (ne_of_gt h)]
  · intro env model tok thread query answer context scores h
    obtain ⟨qspan, aspan, offs, -, -, ho, hsc⟩ := compute_attention_ok_inv h
    rw [hsc]
    unfold attentionScores
    rw [List.length_map]
    exact contextOffsets_length (tok thread) tok context offs ho

/-- C2 witness: the similarity scores of two equal documents sum to 1 and
have one entry per document; the attention scores [1 / 9] of the single
document call also have one entry per document. -/
theorem C2_witness :
    ((compute_similarity envNoQuery encodeA cosine1 ("Q") [("D2"), ("D3")]
        ("A")).sum = 1 ∧
      (compute_similarity envNoQuery encodeA cosine1 ("Q") [("D2"), ("D3")]
        ("A")).length = [("D2"), ("D3")].length) ∧
      ([1 / 9] : List ℚ).length = [("D")].length :=
  ⟨C2_one_score_per_document.1 ℚ envNoQuery encodeA cosine1 ("Q") ("A")
      [("D2"), ("D3")] (by rw [ssPos]; norm_num),
    C2_one_score_per_document.2 envDefault modelB tokB ("T") ("Q") ("A")
      [("D")] [1 / 9] evalB⟩

/-- C3 counterexample: a compute_similarity call with positive normalizing
denominator whose first returned score is -1, outside the interval [0, 1]:
cosine similarity can be negative, and the code does not clip. -/
theorem C3_counterexample :
    0 < (similarity_scores envNoQuery encodeA cosine1 ("Q")
        [("D1"), ("D2"), ("D3")] ("A")).sum ∧
      compute_similarity envNoQuery encodeA cosine1 ("Q")
        [("D1"), ("D2"), ("D3")] ("A") = [-1, 1, 1] ∧
      (-1 : ℚ) ∈ ([-1, 1, 1] : List ℚ) ∧ ¬ (0 : ℚ) ≤ -1 := by
  refine ⟨?_, evalSimNeg, by norm_num, by norm_num⟩
  rw [ssNeg]
  norm_num

/-- C3 (amended): when normalization succeeds every returned score lies in
[0, 1], provided the attention weights are non-negative and the slice
position sets of the query span, the answer span and each document span are
pairwise disjoint (for compute_attention), respectively provided every raw
similarity score is non-negative (for compute_similarity); without those
extra hypotheses the counterexample applies. -/
theorem C3_score_range :
    (∀ (env : Env) (model : List ℕ → AttnTensor) (tok : String → List ℕ)
        (thread query answer : String) (context : List String)
        (qspan aspan : ℤ × ℤ) (offs : List (ℤ × ℤ)) (scores : List ℚ),
      find_sublist_positions (tok thread) (tok query) = .ok qspan →
      find_sublist_positions (tok thread) (tok answer) = .ok aspan →
      contextOffsets (tok thread) tok context = .ok offs →
      (∀ a b c', 0 ≤ (model (tok thread)).w a b c') →
      0 < totalAttnSum (model (tok thread)) →
      (∀ se ∈ offs,
        Disjoint (spanIco (model (tok thread)).len aspan)
            (spanIco (model (tok thread)).len se) ∧
          Disjoint (spanIco (model (tok thread)).len qspan)
            (spanIco (model (tok thread)).len se) ∧
          Disjoint (spanIco (model (tok thread)).len qspan)
            (spanIco (model (tok thread)).len aspan)) →
      compute_attention env model tok thread query context answer =
        .ok scores →
      ∀ x ∈ scores, 0 ≤ x ∧ x ≤ 1)
    ∧ ∀ (E : Type) (env : Env) (encode : String → E) (sim : E → E → ℚ)
        (query answer : String) (context : List String),
      (∀ s ∈ similarity_scores env encode sim query context answer, 0 ≤ s) →
      0 < (similarity_scores env encode sim query context answer).sum →
      ∀ x ∈ compute_similarity env encode sim query context answer,
        0 ≤ x ∧ x ≤ 1 := by
  constructor
  · intro env model tok thread query answer context qspan aspan offs scores
      hq ha ho hw htot hdisj hca x hx
    rw [compute_attention_ok hq ha ho] at hca
    simp only [Except.ok.injEq] at hca
    rw [← hca] at hx
    unfold attentionScores at hx
    rw [List.mem_map] at hx
    obtain ⟨se, hse, hfx⟩ := hx
    obtain ⟨hda, hdq, hqa⟩ := hdisj se hse
    rw [← hfx]
    show 0 ≤ (if totalAttnSum (model (tok thread)) > 0 then
        doc_attention_sum (model (tok thread)) (includeQueryFlag env) qspan
          aspan se / totalAttnSum (model (tok thread)) else 0) ∧
      (if totalAttnSum (model (tok thread)) > 0 then
        doc_attention_sum (model (tok thread)) (includeQueryFlag env) qspan
          aspan se / totalAttnSum (model (tok thread)) else 0) ≤ 1
    rw [if_pos htot]
    constructor
    · exact div_nonneg
        (doc_attention_sum_nonneg hw (includeQueryFlag env) qspan aspan se)
        (le_of_lt htot)
    · exact (div_le_one htot).mpr
        (doc_attention_sum_le_total hw (includeQueryFlag env) qspan aspan se
          hda hdq hqa)
  · intro E env encode sim query answer context hnn htot x hx
    rw [compute_similarity_pos env encode sim query context answer htot] at hx
    rw [List.mem_map] at hx
    obtain ⟨s, hs, hsx⟩ := hx
    rw [← hsx]
    exact ⟨div_nonneg (hnn s hs) (le_of_lt htot),
      (div_le_one htot).mpr (List.single_le_sum hnn s hs)⟩

/-- C3 witness: the amended statement applied to the six token uniform
attention call, returning the score 1 / 9, and to the two document
similarity call, returning the score 1 / 2. -/
theorem C3_witness :
    (0 ≤ (1 : ℚ) / 9 ∧ (1 : ℚ) / 9 ≤ 1) ∧
      (0 ≤ (1 : ℚ) / 2 ∧ (1 : ℚ) / 2 ≤ 1) := by
  constructor
  · refine C3_score_range.1 envDefault modelB tokB ("T") ("Q") ("A") [("D")]
      (0, 1) (2, 3) [(4, 5)] [1 / 9] (by decide) (by decide) (by decide)
      (fun a b c' => zero_le_one) (by rw [totalB]; norm_num) ?_ evalB
      (1 / 9) (List.mem_singleton.mpr rfl)
    intro se hse
    rw [List.mem_singleton] at hse
    subst hse
    exact ⟨by decide, by decide, by decide⟩
  · refine C3_score_range.2 ℚ envNoQuery encodeA cosine1 ("Q") ("A")
      [("D2"), ("D3")] ?_ (by rw [ssPos]; norm_num) (1 / 2) ?_
    · rw [ssPos]
      intro s hs
      simp at hs
      rw [hs]
      norm_num
    · rw [evalSimPos]
      exact List.mem_cons_self _ _

/-- C4: when the normalizing denominator is not positive, each attributor
returns the raw per document values unchanged: for compute_attention with
non-negative attention weights and total weight at most 0, the returned list
equals the list of raw doc_attention_sum values (all of which are then 0, so
returning 0 per document coincides with returning the raw sums), and for
compute_similarity with total similarity at most 0 the raw similarity scores
are returned without division. -/
theorem C4_degenerate_fallback :
    (∀ (env : Env) (model : List ℕ → AttnTensor) (tok : String → List ℕ)
        (thread query answer : String) (context : List String)
        (qspan aspan : ℤ × ℤ) (offs : List (ℤ × ℤ)),
      find_sublist_positions (tok thread) (tok query) = .ok qspan →
      find_sublist_positions (tok thread) (tok answer) = .ok aspan →
      contextOffsets (tok thread) tok context = .ok offs →
      (∀ a b c', 0 ≤ (model (tok thread)).w a b c') →
      totalAttnSum (model (tok thread)) ≤ 0 →
      compute_attention env model tok thread query context answer =
        .ok (offs.map (doc_attention_sum (model (tok thread))
          (includeQueryFlag env) qspan aspan)))
    ∧ ∀ (E : Type) (env : Env) (encode : String → E) (sim : E → E → ℚ)
        (query answer : String) (context : List String),
      (similarity_scores env encode sim query context answer).sum ≤ 0 →
      compute_similarity env encode sim query context answer =
        similarity_scores env encode sim query context answer := by
  constructor
  · intro env model tok thread query answer context qspan aspan offs
      hq ha ho hw hle
    rw [compute_attention_ok hq ha ho]
    have hz := w_zero_of_nonpos hw hle
    unfold attentionScores
    refine congrArg Except.ok (list_map_congr fun se hse => ?_)
    rw [if_neg (not_lt.mpr hle), doc_attention_sum_eq_zero hz]
  · intro E env encode sim query answer context hle
    exact compute_similarity_nonpos env encode sim query context answer
      (not_lt.mpr hle)

/-- C4 witness: the all zero attention tensor makes compute_attention return
the raw doc_attention_sum values, and a single document with similarity -1
makes compute_similarity return its raw scores unchanged. -/
theorem C4_witness :
    compute_attention envDefault modelZ tokA ("T") ("Q") [("D")] ("A") =
      .ok ([((2 : ℤ), (3 : ℤ))].map (doc_attention_sum (modelZ (tokA ("T")))
        (includeQueryFlag envDefault) (0, 0) (1, 1))) ∧
      compute_similarity envNoQuery encodeA cosine1 ("Q") [("D1")] ("A") =
        similarity_scores envNoQuery encodeA cosine1 ("Q") [("D1")] ("A") :=
  ⟨C4_degenerate_fallback.1 envDefault modelZ tokA ("T") ("Q") ("A") [("D")]
      (0, 0) (1, 1) [(2, 3)] (by decide) (by decide) (by decide)
      (fun a b c' => le_refl 0) (le_of_eq totalZ),
    C4_degenerate_fallback.2 ℚ envNoQuery encodeA cosine1 ("Q") ("A")
      [("D1")] (by rw [ssOne]; norm_num)⟩

/-- C5: when the total similarity is positive, compute_similarity returns
each raw similarity score divided by the total, and consequently the
returned scores sum exactly to 1 (so certainly within tolerance). -/
theorem C5_embedding_normalization (E : Type) (env : Env)
    (encode : String → E) (sim : E → E → ℚ) (query : String)
    (context : List String) (answer : String)
    (h : 0 < (similarity_scores env encode sim query context answer).sum) :
    compute_similarity env encode sim query context answer =
      (similarity_scores env encode sim query context answer).map
        (fun score =>
          score / (similarity_scores env encode sim query context answer).sum) ∧
      (compute_similarity env encode sim query context answer).sum = 1 := by
  have he := compute_similarity_pos env encode sim query context answer h
  exact ⟨he, by rw [he, list_sum_map_div, div_self (ne_of_gt h)]⟩

/-- C5 witness: the normalization statement applied to the two document
similarity call with raw scores [1, 1]. -/
theorem C5_witness :
    compute_similarity envNoQuery encodeA cosine1 ("Q") [("D2"), ("D3")]
        ("A") =
      (similarity_scores envNoQuery encodeA cosine1 ("Q") [("D2"), ("D3")]
        ("A")).map (fun score => score /
          (similarity_scores envNoQuery encodeA cosine1 ("Q") [("D2"), ("D3")]
            ("A")).sum) ∧
      (compute_similarity envNoQuery encodeA cosine1 ("Q") [("D2"), ("D3")]
        ("A")).sum = 1 :=
  C5_embedding_normalization ℚ envNoQuery encodeA cosine1 ("Q")
    [("D2"), ("D3")] ("A") (by rw [ssPos]; norm_num)

/-- C10: when the attribute_include_query variable is the string False, the
query is never embedded, so compute_similarity returns equal score lists for
any two queries with the same context, answer and embedding model. -/
theorem C10_query_independent (E : Type) (env : Env) (encode : String → E)
    (sim : E → E → ℚ) (qa qb : String) (context : List String)
    (answer : String)
    (h : env ("attribute_include_query") = some ("False")) :
    compute_similarity env encode sim qa context answer =
      compute_similarity env encode sim qb context answer := by
  have hf : includeQueryFlag env = false := by
    simp [includeQueryFlag, h]
  simp [compute_similarity, similarity_scores, hf]

/-- C10 witness: two different query strings give the same scores under
envNoQuery. -/
theorem C10_witness :
    envNoQuery ("attribute_include_query") = some ("False") ∧
      compute_similarity envNoQuery encodeA cosine1 ("Qx") [("D1")] ("A") =
        compute_similarity envNoQuery encodeA cosine1 ("Qy") [("D1")] ("A") :=
  ⟨by decide,
    C10_query_independent ℚ envNoQuery encodeA cosine1 ("Qx") ("Qy") [("D1")]
      ("A") (by decide)⟩

end Provenance
